import Mathlib

set_option linter.unusedVariables false

/-!
Shallow embedding of the LeetOps rating engine
(`src/leetops/playground/rating_calculator.py`) in Lean 4.

Python `int` is modelled by `ℤ` and Python `float` by dyadic values inside
`ℚ`.  Python's built-in `round` (banker's rounding, half to even) is modelled
by `pyRound`; `int()` truncation toward zero by `pyTrunc`.  Where a claim's
truth depends on binary64 rounding — the smoothed rating change multiplies an
`int` by the float literals `0.5` / `0.7` / `0.8` / `1.0` — the float
semantics is modelled exactly: `roundDouble` is IEEE-754 round-to-nearest,
ties-to-even at 53 significant bits, `mulDouble` is one correctly rounded
multiplication, and the literals `0.7` and `0.8` denote the nearest doubles
(`double07`, `double08`), not 7/10 and 4/5.  Comparisons of float ratios
against the band constants (0.25, 0.5, 0.75, all exact dyadics) and the
[800, 1480] skill-rating bounds are insensitive to the final rounding at the
magnitudes involved, and those values are kept as exact rationals.  Python
dicts returned by the scoring functions are modelled by structures; a dict
key that is present only on some return paths becomes an `Option` field
(`none` = key absent).  A Python method call that fails attribute lookup
(`AttributeError`) is modelled by `Except.error`.
-/

/-- Python's built-in `round` on exact values: nearest integer, ties to even. -/
def pyRound (q : ℚ) : ℤ :=
  if q - ⌊q⌋ < 1/2 then ⌊q⌋
  else if q - ⌊q⌋ > 1/2 then ⌊q⌋ + 1
  else if ⌊q⌋ % 2 = 0 then ⌊q⌋ else ⌊q⌋ + 1

/-- Python's `int()` on a number: truncation toward zero. -/
def pyTrunc (q : ℚ) : ℤ :=
  if q < 0 then ⌈q⌉ else ⌊q⌋

/-- Floor of the base-2 logarithm of a positive rational. -/
def ratExp2 (q : ℚ) : ℤ :=
  if 1 ≤ q then (Nat.log 2 ⌊q⌋.toNat : ℤ)
  else -(Nat.clog 2 ⌈q⁻¹⌉.toNat : ℤ)

/-- Round a rational to the IEEE-754 binary64 value nearest it (round to
nearest, ties to even): the significand `q / 2^(e-52)`, which lies in
[2^52, 2^53), is rounded half-to-even to an integer.  Overflow to infinity
and subnormal underflow lie outside every magnitude this development
evaluates and are not modelled. -/
def roundDouble (q : ℚ) : ℚ :=
  if q = 0 then 0
  else (pyRound (q * 2 ^ (52 - ratExp2 |q|)) : ℚ) * 2 ^ (ratExp2 |q| - 52)

/-- IEEE-754 binary64 multiplication: the exact product, correctly rounded. -/
def mulDouble (x y : ℚ) : ℚ := roundDouble (x * y)

/-- The binary64 value the Python float literal `0.7` denotes (0.7 is not a
dyadic rational; the nearest double is 3152519739159347 / 2^52, verified by
`roundDouble_seven_tenths`). -/
def double07 : ℚ := 3152519739159347 / 2 ^ 52

/-- The binary64 value the Python float literal `0.8` denotes (the nearest
double is 3602879701896397 / 2^52, verified by `roundDouble_four_fifths`). -/
def double08 : ℚ := 3602879701896397 / 2 ^ 52

namespace RatingCalculator

/-- `RATING_CATEGORIES`: name, min rating, max rating (insertion order). -/
def RATING_CATEGORIES : List (String × ℤ × ℤ) :=
  [("junior", 800, 999), ("mid", 1000, 1199), ("senior", 1200, 1399), ("staff", 1400, 1600)]

/-- `SPEED_BONUSES`: name, min ratio, max ratio (`none` = `float('inf')`), bonus
(insertion order). -/
def SPEED_BONUSES : List (String × ℚ × Option ℚ × ℤ) :=
  [("excellent", 0, some (1/4), 50), ("good", 1/4, some (1/2), 30),
   ("satisfactory", 1/2, some (3/4), 15), ("adequate", 3/4, some 1, 5),
   ("poor", 1, none, 0)]

/-- `PENALTIES` dict. -/
def PENALTIES : List (String × ℤ) :=
  [("give_up", -20), ("timeout", -10), ("escalation", -5)]

/-- Python `dict.get(key, default)` over an association list. -/
def dictGet {α : Type} : List (String × α) → String → α → α
  | [], _, d => d
  | (k, v) :: rest, key, d => if k = key then v else dictGet rest key d

/-- The dict returned by `_calculate_penalty_rating` (and, were it reachable,
the scorer's success path): `base_points`, `speed_bonus`, `quality_multiplier`,
`total_points`, `time_ratio`, `penalty_type`. -/
structure ScoreResult where
  base_points : ℤ
  speed_bonus : ℤ
  quality_multiplier : ℚ
  total_points : ℤ
  time_ratio : ℚ
  penalty_type : Option String
  deriving Repr, DecidableEq

/-- Exceptions a modelled Python call can raise. -/
inductive PyExc where
  | attributeError
  deriving Repr, DecidableEq

/-- `_calculate_penalty_rating(penalty_type)`. -/
def _calculate_penalty_rating (penalty_type : String) : ScoreResult :=
  let penalty_points := dictGet PENALTIES penalty_type 0
  { base_points := 0, speed_bonus := 0, quality_multiplier := 1,
    total_points := penalty_points, time_ratio := 1,
    penalty_type := some penalty_type }

/-- `calculate_incident_rating(...)` delegates to
`cls.calculate_incident_rating_with_llm(...)`.  No class in the repository
defines `calculate_incident_rating_with_llm` (the only other occurrence is a
second call site in `views.py`), so in Python the attribute lookup on
`RatingCalculator` fails and the call raises `AttributeError` before any
scoring logic runs, for every argument combination. -/
def calculate_incident_rating (time_limit_minutes actual_time_minutes : ℤ)
    (solution_type severity : String)
    (was_successful was_escalated was_abandoned : Bool) : Except PyExc ScoreResult :=
  Except.error PyExc.attributeError

/-- First-match lookup over `SPEED_BONUSES` rows: `min_ratio <= time_ratio < max_ratio`
(a `none` upper bound is `float('inf')`, which every finite ratio is below,
so only the lower-bound test remains). -/
def speedBonusLookup : List (String × ℚ × Option ℚ × ℤ) → ℚ → ℤ
  | [], _ => 0
  | (_, min_ratio, some max_ratio, bonus) :: rest, time_ratio =>
    if min_ratio ≤ time_ratio ∧ time_ratio < max_ratio then bonus
    else speedBonusLookup rest time_ratio
  | (_, min_ratio, none, bonus) :: rest, time_ratio =>
    if min_ratio ≤ time_ratio then bonus
    else speedBonusLookup rest time_ratio

/-- `_get_speed_bonus(time_ratio)`. -/
def _get_speed_bonus (time_ratio : ℚ) : ℤ :=
  speedBonusLookup SPEED_BONUSES time_ratio

/-- The dict returned by `calculate_rating_with_groq_score` (the
`calculation_breakdown` sub-dict is flattened into the `quality_category`
field it contributes beyond echoes of the inputs). -/
structure GroqRatingResult where
  base_rating_change : ℤ
  time_multiplier : ℚ
  severity_multiplier : ℚ
  final_rating_change : ℤ
  llm_score : ℤ
  time_ratio : ℚ
  quality_category : String
  deriving Repr, DecidableEq

/-- `calculate_rating_with_groq_score(llm_score, time_spent_minutes,
time_limit_minutes, severity)`. -/
def calculate_rating_with_groq_score (llm_score time_spent_minutes time_limit_minutes : ℤ)
    (severity : String) : GroqRatingResult :=
  let base_rating_change : ℤ :=
    if llm_score ≥ 80 then 25 else if llm_score ≥ 50 then 10 else -15
  let time_multiplier : ℚ :=
    if time_limit_minutes > 0 then
      let time_ratio : ℚ := (time_spent_minutes : ℚ) / (time_limit_minutes : ℚ)
      if llm_score ≥ 80 then
        if time_ratio ≤ 1/2 then 3/2
        else if time_ratio ≤ 3/4 then 6/5
        else 1
      else if llm_score ≥ 50 then
        if time_ratio ≤ 1/2 then 6/5
        else if time_ratio ≤ 3/4 then 1
        else 4/5
      else 1
    else 1
  let severity_multiplier : ℚ :=
    dictGet [("P0", 3/2), ("P1", 6/5), ("P2", 1), ("P3", 4/5)] severity 1
  { base_rating_change := base_rating_change
    time_multiplier := time_multiplier
    severity_multiplier := severity_multiplier
    final_rating_change := pyTrunc ((base_rating_change : ℚ) * time_multiplier * severity_multiplier)
    llm_score := llm_score
    time_ratio := if time_limit_minutes > 0 then (time_spent_minutes : ℚ) / (time_limit_minutes : ℚ) else 1
    quality_category :=
      if llm_score ≥ 80 then "high" else if llm_score ≥ 50 then "medium" else "poor" }

/-- One element of the `incident_results` list passed to `update_user_rating`:
an arbitrary dict read only through `.get("total_points", 0)` and the
`"actual_time"` / `"time_limit"` keys of its `"calculation_breakdown"`
sub-dict.  `none` models a missing key. -/
structure IncidentResult where
  total_points : Option ℤ
  breakdown_actual_time : Option ℤ
  breakdown_time_limit : Option ℤ
  deriving Repr, DecidableEq

/-- `result.get("total_points", 0)`. -/
def IncidentResult.points (r : IncidentResult) : ℤ :=
  r.total_points.getD 0

/-- The dict returned by `_calculate_skill_ratings`. -/
structure SkillRatings where
  debugging_skill : ℤ
  system_design : ℤ
  incident_response : ℤ
  communication : ℤ
  deriving Repr, DecidableEq

/-- `_calculate_skill_ratings(incident_results)`. -/
def _calculate_skill_ratings (incident_results : List IncidentResult) : SkillRatings :=
  if incident_results.isEmpty then
    { debugging_skill := 800, system_design := 800,
      incident_response := 800, communication := 800 }
  else
    let successful_incidents := incident_results.filter (fun r => r.points > 0)
    let success_rate : ℚ :=
      if incident_results.length ≠ 0 then
        (successful_incidents.length : ℚ) / (incident_results.length : ℚ)
      else 0
    let base_skill : ℚ := 800 + success_rate * 600
    { debugging_skill := pyRound (base_skill + success_rate * 50)
      system_design := pyRound (base_skill + success_rate * 30)
      incident_response := pyRound (base_skill + success_rate * 80)
      communication := pyRound (base_skill + success_rate * 20) }

/-- The smoothing factor chosen inside `_apply_rating_smoothing` from
`current_rating`, as the binary64 value of the float literal the source
assigns (`0.5` and `1.0` are exact; `0.7` and `0.8` are `double07` and
`double08`). -/
def smoothing_factor (current_rating : ℤ) : ℚ :=
  if current_rating ≥ 1400 then 1/2
  else if current_rating ≥ 1200 then double07
  else if current_rating ≥ 1000 then double08
  else 1

/-- `_apply_rating_smoothing(points_change, current_rating)`:
`round(points_change * smoothing_factor)` under Python float semantics — the
int is converted to binary64 (`roundDouble`), multiplied by the binary64
factor with one IEEE rounding (`mulDouble`), and `round` (ties to even)
produces the int. -/
def _apply_rating_smoothing (points_change current_rating : ℤ) : ℤ :=
  pyRound (mulDouble (roundDouble (points_change : ℚ)) (smoothing_factor current_rating))

/-- The dict returned by `update_user_rating`.  The empty-input early return
carries only `new_rating`, `rating_change` and `session_performance`; the
aggregate keys absent from it are `Option` fields set to `none` there. -/
structure UpdateResult where
  new_rating : ℤ
  rating_change : ℤ
  total_points_earned : Option ℤ
  success_rate : Option ℚ
  average_resolution_time : Option ℚ
  skill_ratings : Option SkillRatings
  session_total_incidents : ℕ
  session_successful_incidents : ℕ
  deriving Repr, DecidableEq

/-- `update_user_rating(current_rating, incident_results)`. -/
def update_user_rating (current_rating : ℤ)
    (incident_results : List IncidentResult) : UpdateResult :=
  if incident_results.isEmpty then
    { new_rating := current_rating, rating_change := 0,
      total_points_earned := none, success_rate := none,
      average_resolution_time := none, skill_ratings := none,
      session_total_incidents := 0, session_successful_incidents := 0 }
  else
    let total_points := (incident_results.map (fun r => r.points)).sum
    let successful_incidents := (incident_results.filter (fun r => r.points > 0)).length
    let total_attempts := incident_results.length
    let success_rate : ℚ :=
      if total_attempts > 0 then (successful_incidents : ℚ) / (total_attempts : ℚ) else 0
    let resolution_times : List ℤ := incident_results.filterMap (fun r =>
      match r.breakdown_actual_time, r.breakdown_time_limit with
      | some a, some _ => some a
      | _, _ => none)
    let avg_resolution_time : ℚ :=
      if ¬ resolution_times.isEmpty then
        ((resolution_times.map (fun t => (t : ℚ))).sum) / (resolution_times.length : ℚ)
      else 0
    let rating_change := _apply_rating_smoothing total_points current_rating
    let new_rating := max 800 (min 1600 (current_rating + rating_change))
    { new_rating := new_rating, rating_change := rating_change,
      total_points_earned := some total_points, success_rate := some success_rate,
      average_resolution_time := some avg_resolution_time,
      skill_ratings := some (_calculate_skill_ratings incident_results),
      session_total_incidents := total_attempts,
      session_successful_incidents := successful_incidents }

/-- First-match lookup over `RATING_CATEGORIES`: `min_rating <= rating <= max_rating`. -/
def categoryLookup : List (String × ℤ × ℤ) → ℤ → String
  | [], _ => "junior"
  | (name, min_rating, max_rating) :: rest, rating =>
    if min_rating ≤ rating ∧ rating ≤ max_rating then name else categoryLookup rest rating

/-- `get_rating_category(rating)`. -/
def get_rating_category (rating : ℤ) : String :=
  categoryLookup RATING_CATEGORIES rating

/-- `get_rating_percentile(rating)`. -/
def get_rating_percentile (rating : ℤ) : ℚ :=
  if rating ≥ 1500 then 95
  else if rating ≥ 1400 then 85
  else if rating ≥ 1300 then 70
  else if rating ≥ 1200 then 50
  else if rating ≥ 1100 then 30
  else if rating ≥ 1000 then 15
  else if rating ≥ 900 then 5
  else 1

/-- The max bound returned by `_get_next_threshold`'s scan: the `max_rating`
of the first category with `rating < max_rating`, else `1600`. -/
def nextThresholdLookup : List (String × ℤ × ℤ) → ℤ → ℤ
  | [], _ => 1600
  | (_, _, max_rating) :: rest, rating =>
    if rating < max_rating then max_rating else nextThresholdLookup rest rating

/-- `_get_next_threshold(rating)`. -/
def _get_next_threshold (rating : ℤ) : ℤ :=
  nextThresholdLookup RATING_CATEGORIES rating

/-- `_get_points_to_next_category(rating)`. -/
def _get_points_to_next_category (rating : ℤ) : ℤ :=
  max 0 (_get_next_threshold rating - rating)

/-- `RATING_CATEGORIES[category]` as used by `generate_rating_report`. -/
def ratingRangeOf (category : String) : ℤ × ℤ :=
  dictGet (RATING_CATEGORIES.map (fun c => (c.1, c.2))) category (0, 0)

/-- The dict returned by `generate_rating_report(user_rating)` when called
without `recent_incidents` (so `recent_performance` is `None`). -/
structure RatingReport where
  current_rating : ℤ
  category : String
  percentile : ℚ
  rating_range : ℤ × ℤ
  next_category_threshold : ℤ
  points_to_next_category : ℤ
  deriving Repr, DecidableEq

/-- `generate_rating_report(user_rating)` (no recent incidents supplied). -/
def generate_rating_report (user_rating : ℤ) : RatingReport :=
  let category := get_rating_category user_rating
  { current_rating := user_rating
    category := category
    percentile := get_rating_percentile user_rating
    rating_range := ratingRangeOf category
    next_category_threshold := _get_next_threshold user_rating
    points_to_next_category := _get_points_to_next_category user_rating }

/-- Spec-side restatement of the speed-bonus bands, written from the spec's
half-open-interval description (claim C7). -/
def speedBonusSpec (time_ratio : ℚ) : ℤ :=
  if time_ratio < 1/4 then 50
  else if time_ratio < 1/2 then 30
  else if time_ratio < 3/4 then 15
  else if time_ratio < 1 then 5
  else 0

/-- Spec-side restatement of the next-category threshold, written from the
spec's description: the max bound of the first category (junior, mid, senior,
staff) whose max exceeds the rating, and 1600 if none does (claim C8). -/
def nextThresholdSpec (rating : ℤ) : ℤ :=
  if rating < 999 then 999
  else if rating < 1199 then 1199
  else if rating < 1399 then 1399
  else if rating < 1600 then 1600
  else 1600

/-- Spec-side restatement of the smoothing factor, written from the spec's
interval description: 1.0 below 1000, 0.8 on [1000,1200), 0.7 on [1200,1400),
0.5 at or above 1400 (claim C6). -/
def smoothingFactorSpec (rating : ℤ) : ℚ :=
  if rating < 1000 then 1
  else if rating < 1200 then 4/5
  else if rating < 1400 then 7/10
  else 1/2

/-- Spec-side restatement of the Groq time-efficiency multiplier amended to
the bands the code implements (claim C4). -/
def groqTimeMultiplierAmended (llm_score : ℤ) (time_ratio : ℚ) : ℚ :=
  if llm_score ≥ 80 then
    if time_ratio ≤ 1/2 then 3/2
    else if time_ratio ≤ 3/4 then 6/5
    else 1
  else if llm_score ≥ 50 then
    if time_ratio ≤ 1/2 then 6/5
    else if time_ratio ≤ 3/4 then 1
    else 4/5
  else 1

end RatingCalculator

section PyRoundLemmas

theorem pyRound_cases (q : ℚ) : pyRound q = ⌊q⌋ ∨ pyRound q = ⌊q⌋ + 1 := by
  unfold pyRound
  split_ifs <;> simp

theorem le_pyRound {a : ℤ} {q : ℚ} (h : (a : ℚ) ≤ q) : a ≤ pyRound q := by
  have hf : a ≤ ⌊q⌋ := Int.le_floor.mpr h
  rcases pyRound_cases q with h1 | h1 <;> omega

theorem pyRound_le {b : ℤ} {q : ℚ} (h : q ≤ (b : ℚ)) : pyRound q ≤ b := by
  have hfb : ⌊q⌋ ≤ b := by
    have h2 : ⌊q⌋ ≤ ⌊(b : ℚ)⌋ := Int.floor_le_floor h
    simpa using h2
  have hfl : (⌊q⌋ : ℚ) ≤ q := Int.floor_le q
  unfold pyRound
  split_ifs with h1 h2 h3
  · exact hfb
  · have hc : (⌊q⌋ : ℚ) < (b : ℚ) := by linarith
    have : ⌊q⌋ < b := by exact_mod_cast hc
    omega
  · exact hfb
  · have heq : q - (⌊q⌋ : ℚ) = 1/2 := le_antisymm (not_lt.mp h2) (not_lt.mp h1)
    have hc : (⌊q⌋ : ℚ) < (b : ℚ) := by linarith
    have : ⌊q⌋ < b := by exact_mod_cast hc
    omega

theorem pyRound_half_add (m : ℤ) :
    pyRound ((m : ℚ) + 1/2) = if m % 2 = 0 then m else m + 1 := by
  have hf : ⌊(m : ℚ) + 1/2⌋ = m := by
    rw [add_comm, Int.floor_add_int]
    norm_num
  unfold pyRound
  rw [hf]
  have hfrac : (m : ℚ) + 1/2 - (m : ℚ) = 1/2 := by ring
  rw [hfrac]
  norm_num

end PyRoundLemmas

section FloatLemmas

theorem pyRound_intCast (n : ℤ) : pyRound ((n : ℤ) : ℚ) = n := by
  unfold pyRound
  rw [Int.floor_intCast]
  norm_num

theorem ratExp2_spec (q : ℚ) (h : 0 < q) :
    (2 : ℚ) ^ ratExp2 q ≤ q ∧ q < (2 : ℚ) ^ (ratExp2 q + 1) := by
  unfold ratExp2
  split_ifs with h1
  · have hfl : (1 : ℤ) ≤ ⌊q⌋ := Int.le_floor.mpr (by exact_mod_cast h1)
    have hcast : ((⌊q⌋.toNat : ℤ) : ℚ) = (⌊q⌋ : ℚ) := by
      rw [Int.toNat_of_nonneg (by omega)]
    constructor
    · have h2 : 2 ^ Nat.log 2 ⌊q⌋.toNat ≤ ⌊q⌋.toNat := Nat.pow_log_le_self 2 (by omega)
      calc (2 : ℚ) ^ ((Nat.log 2 ⌊q⌋.toNat : ℕ) : ℤ)
          = ((2 ^ Nat.log 2 ⌊q⌋.toNat : ℕ) : ℚ) := by
            rw [zpow_natCast]; push_cast; ring
        _ ≤ ((⌊q⌋.toNat : ℕ) : ℚ) := by exact_mod_cast h2
        _ = (⌊q⌋ : ℚ) := by exact_mod_cast hcast
        _ ≤ q := Int.floor_le q
    · have h2 : ⌊q⌋.toNat < 2 ^ (Nat.log 2 ⌊q⌋.toNat + 1) :=
        Nat.lt_pow_succ_log_self one_lt_two _
      have h3 : q < (⌊q⌋ : ℚ) + 1 := Int.lt_floor_add_one q
      calc q < (⌊q⌋ : ℚ) + 1 := h3
        _ = ((⌊q⌋.toNat : ℤ) : ℚ) + 1 := by rw [hcast]
        _ ≤ ((2 ^ (Nat.log 2 ⌊q⌋.toNat + 1) : ℕ) : ℚ) := by exact_mod_cast h2
        _ = (2 : ℚ) ^ ((Nat.log 2 ⌊q⌋.toNat : ℤ) + 1) := by
            rw [show ((Nat.log 2 ⌊q⌋.toNat : ℤ) + 1) = ((Nat.log 2 ⌊q⌋.toNat + 1 : ℕ) : ℤ) by
              push_cast; ring, zpow_natCast]
            push_cast; ring
  · push_neg at h1
    have hinv : (1 : ℚ) < q⁻¹ := (one_lt_inv_iff₀).mpr ⟨h, h1⟩
    have hceil2 : (2 : ℤ) ≤ ⌈q⁻¹⌉ := by
      have : (1 : ℤ) < ⌈q⁻¹⌉ := Int.lt_ceil.mpr (by exact_mod_cast hinv)
      omega
    have hcast : ((⌈q⁻¹⌉.toNat : ℤ) : ℚ) = (⌈q⁻¹⌉ : ℚ) := by
      rw [Int.toNat_of_nonneg (by omega)]
    have hm2 : 1 < ⌈q⁻¹⌉.toNat := by omega
    constructor
    · have h2 : ⌈q⁻¹⌉.toNat ≤ 2 ^ Nat.clog 2 ⌈q⁻¹⌉.toNat := Nat.le_pow_clog one_lt_two _
      have h3 : q⁻¹ ≤ ((2 ^ Nat.clog 2 ⌈q⁻¹⌉.toNat : ℕ) : ℚ) := by
        calc q⁻¹ ≤ (⌈q⁻¹⌉ : ℚ) := Int.le_ceil _
          _ = ((⌈q⁻¹⌉.toNat : ℤ) : ℚ) := hcast.symm
          _ ≤ _ := by exact_mod_cast h2
      have h4 : (((2 ^ Nat.clog 2 ⌈q⁻¹⌉.toNat : ℕ) : ℚ))⁻¹ ≤ q :=
        (inv_le_comm₀ h (by positivity)).mp h3
      calc (2 : ℚ) ^ (-(Nat.clog 2 ⌈q⁻¹⌉.toNat : ℤ))
          = (((2 ^ Nat.clog 2 ⌈q⁻¹⌉.toNat : ℕ) : ℚ))⁻¹ := by
            rw [zpow_neg, zpow_natCast]; push_cast; ring
        _ ≤ q := h4
    · have h2 : 2 ^ (Nat.clog 2 ⌈q⁻¹⌉.toNat - 1) < ⌈q⁻¹⌉.toNat :=
        Nat.pow_pred_clog_lt_self one_lt_two hm2
      have h3 : ((2 ^ (Nat.clog 2 ⌈q⁻¹⌉.toNat - 1) : ℕ) : ℚ) < q⁻¹ := by
        by_contra hc
        push_neg at hc
        have hcl : ⌈q⁻¹⌉ ≤ ((2 ^ (Nat.clog 2 ⌈q⁻¹⌉.toNat - 1) : ℕ) : ℤ) :=
          Int.ceil_le.mpr (by exact_mod_cast hc)
        have : ⌈q⁻¹⌉.toNat ≤ 2 ^ (Nat.clog 2 ⌈q⁻¹⌉.toNat - 1) := by omega
        omega
      have h4 : q < (((2 ^ (Nat.clog 2 ⌈q⁻¹⌉.toNat - 1) : ℕ) : ℚ))⁻¹ :=
        (lt_inv_comm₀ h (by positivity)).mpr h3
      have hk1 : 1 ≤ Nat.clog 2 ⌈q⁻¹⌉.toNat := by
        have := (Nat.pow_lt_iff_lt_clog one_lt_two).mp
          (show 2 ^ 0 < ⌈q⁻¹⌉.toNat by omega)
        omega
      calc q < (((2 ^ (Nat.clog 2 ⌈q⁻¹⌉.toNat - 1) : ℕ) : ℚ))⁻¹ := h4
        _ = (2 : ℚ) ^ (-(Nat.clog 2 ⌈q⁻¹⌉.toNat : ℤ) + 1) := by
            rw [show (-(Nat.clog 2 ⌈q⁻¹⌉.toNat : ℤ) + 1)
                = -(((Nat.clog 2 ⌈q⁻¹⌉.toNat - 1 : ℕ) : ℤ)) by omega]
            rw [zpow_neg, zpow_natCast]
            push_cast
            ring

theorem ratExp2_eq_of (q : ℚ) (E : ℤ) (h1 : (2 : ℚ) ^ E ≤ q) (h2 : q < (2 : ℚ) ^ (E + 1)) :
    ratExp2 q = E := by
  have h : 0 < q := lt_of_lt_of_le (by positivity) h1
  obtain ⟨l, u⟩ := ratExp2_spec q h
  by_contra hne
  rcases lt_or_gt_of_ne hne with hlt | hgt
  · have hc : (2 : ℚ) ^ (ratExp2 q + 1) ≤ (2 : ℚ) ^ E :=
      (zpow_le_zpow_iff_right₀ (by norm_num : (1:ℚ) < 2)).mpr (by omega)
    linarith
  · have hc : (2 : ℚ) ^ (E + 1) ≤ (2 : ℚ) ^ ratExp2 q :=
      (zpow_le_zpow_iff_right₀ (by norm_num : (1:ℚ) < 2)).mpr (by omega)
    linarith

theorem roundDouble_formula (q : ℚ) (E : ℤ) (h0 : q ≠ 0)
    (h1 : (2 : ℚ) ^ E ≤ |q|) (h2 : |q| < (2 : ℚ) ^ (E + 1)) :
    roundDouble q = (pyRound (q * 2 ^ (52 - E)) : ℚ) * 2 ^ (E - 52) := by
  unfold roundDouble
  rw [if_neg h0, ratExp2_eq_of |q| E h1 h2]

theorem roundDouble_exact (q : ℚ) (E : ℤ) (h0 : q ≠ 0)
    (h1 : (2 : ℚ) ^ E ≤ |q|) (h2 : |q| < (2 : ℚ) ^ (E + 1))
    (n : ℤ) (hn : q * 2 ^ (52 - E) = (n : ℚ)) :
    roundDouble q = q := by
  rw [roundDouble_formula q E h0 h1 h2, hn, pyRound_intCast, ← hn, mul_assoc,
    ← zpow_add₀ (by norm_num : (2:ℚ) ≠ 0),
    show (52 - E) + (E - 52) = 0 by ring, zpow_zero, mul_one]

theorem roundDouble_dyadic (n k : ℤ) (h0 : n ≠ 0) (h : |n| < 2 ^ 53) :
    roundDouble ((n : ℚ) * 2 ^ k) = (n : ℚ) * 2 ^ k := by
  have hq0 : (n : ℚ) * 2 ^ k ≠ 0 :=
    mul_ne_zero (Int.cast_ne_zero.mpr h0) (by positivity)
  have habs : (0 : ℚ) < |(n : ℚ) * 2 ^ k| := abs_pos.mpr hq0
  obtain ⟨l, u⟩ := ratExp2_spec |(n : ℚ) * 2 ^ k| habs
  have hupper : |(n : ℚ) * 2 ^ k| < 2 ^ (k + 53) := by
    rw [abs_mul, abs_of_pos (a := (2:ℚ) ^ k) (by positivity)]
    have hn53 : |(n : ℚ)| < 2 ^ 53 := by
      rw [← Int.cast_abs]
      exact_mod_cast h
    calc |(n : ℚ)| * 2 ^ k < 2 ^ 53 * 2 ^ k :=
          mul_lt_mul_of_pos_right hn53 (by positivity)
      _ = 2 ^ (k + 53) := by
          rw [← zpow_natCast (2:ℚ) 53, ← zpow_add₀ (by norm_num : (2:ℚ) ≠ 0)]
          norm_num
          ring_nf
  have hEk : ratExp2 |(n : ℚ) * 2 ^ k| ≤ k + 52 := by
    have hc : (2 : ℚ) ^ ratExp2 |(n : ℚ) * 2 ^ k| < 2 ^ (k + 53) := lt_of_le_of_lt l hupper
    have := (zpow_lt_zpow_iff_right₀ (by norm_num : (1:ℚ) < 2)).mp hc
    omega
  set E := ratExp2 |(n : ℚ) * 2 ^ k| with hE
  have hm : (0 : ℤ) ≤ k + 52 - E := by omega
  have hint : ((n : ℚ) * 2 ^ k) * 2 ^ (52 - E) = ((n * 2 ^ (k + 52 - E).toNat : ℤ) : ℚ) := by
    push_cast
    rw [← zpow_natCast (2:ℚ) (k + 52 - E).toNat, Int.toNat_of_nonneg hm, mul_assoc,
      ← zpow_add₀ (by norm_num : (2:ℚ) ≠ 0), show k + (52 - E) = k + 52 - E by ring]
  exact roundDouble_exact _ E hq0 l u _ hint

theorem roundDouble_intCast_small (n : ℤ) (h : |n| ≤ 2 ^ 52) :
    roundDouble ((n : ℤ) : ℚ) = n := by
  rcases eq_or_ne n 0 with rfl | h0
  · simp [roundDouble]
  · have hd := roundDouble_dyadic n 0 h0 (lt_of_le_of_lt h (by norm_num))
    simpa using hd

theorem roundDouble_half_intCast_small (n : ℤ) (h : |n| ≤ 2 ^ 52) :
    roundDouble ((n : ℚ) * (1/2)) = (n : ℚ) * (1/2) := by
  rcases eq_or_ne n 0 with rfl | h0
  · simp [roundDouble]
  · have hd := roundDouble_dyadic n (-1) h0 (lt_of_le_of_lt h (by norm_num))
    calc roundDouble ((n : ℚ) * (1/2)) = roundDouble ((n : ℚ) * 2 ^ (-1 : ℤ)) := by norm_num
      _ = (n : ℚ) * 2 ^ (-1 : ℤ) := hd
      _ = (n : ℚ) * (1/2) := by norm_num

/-- The float literal `0.7` denotes `double07`: rounding 7/10 to binary64
yields exactly that dyadic. -/
theorem roundDouble_seven_tenths : roundDouble (7/10) = double07 := by
  rw [roundDouble_formula _ (-1) (by norm_num) (by rw [abs_of_pos] <;> norm_num)
    (by rw [abs_of_pos] <;> norm_num)]
  norm_num [pyRound, double07]

/-- The float literal `0.8` denotes `double08`: rounding 4/5 to binary64
yields exactly that dyadic. -/
theorem roundDouble_four_fifths : roundDouble (4/5) = double08 := by
  rw [roundDouble_formula _ (-1) (by norm_num) (by rw [abs_of_pos] <;> norm_num)
    (by rw [abs_of_pos] <;> norm_num)]
  norm_num [pyRound, double08]

end FloatLemmas

namespace RatingCalculator

/-- C1: the spec requires `score({was_abandoned:true, ...})` to return
`total_points = −20` (the `give_up` penalty the code's `PENALTIES` table and
`_calculate_penalty_rating` encode); but `calculate_incident_rating` raises
`AttributeError` on every call — its delegation target
`calculate_incident_rating_with_llm` does not exist — so an abandoned outcome
never reaches the penalty path and no `ScoreResult` is returned. -/
theorem claim_C1_abandoned_outcome_raises_instead_of_minus_20 :
    calculate_incident_rating 30 15 "abandonment" "P1" false false true
      = Except.error PyExc.attributeError
    ∧ (_calculate_penalty_rating "give_up").total_points = -20 :=
  ⟨rfl, by decide⟩

/-- C2: every call of `calculate_incident_rating` fails with `AttributeError`
regardless of arguments, because the method it delegates to,
`calculate_incident_rating_with_llm`, is defined nowhere in the repository;
the standard solution-type-driven scoring mode can never return a
`ScoreResult`. -/
theorem claim_C2_calculate_incident_rating_always_attribute_error
    (time_limit_minutes actual_time_minutes : ℤ) (solution_type severity : String)
    (was_successful was_escalated was_abandoned : Bool) :
    calculate_incident_rating time_limit_minutes actual_time_minutes
      solution_type severity was_successful was_escalated was_abandoned
      = Except.error PyExc.attributeError :=
  rfl

/-- C7: for every nonnegative time ratio, `_get_speed_bonus` returns the value
of the half-open band containing the ratio — 50 on [0,0.25), 30 on
[0.25,0.50), 15 on [0.50,0.75), 5 on [0.75,1.00), 0 on [1.00,∞) — and a ratio
exactly at a boundary gets the band whose lower bound equals it. -/
theorem claim_C7_speed_bonus_half_open_bands (time_ratio : ℚ) (h : 0 ≤ time_ratio) :
    _get_speed_bonus time_ratio = speedBonusSpec time_ratio := by
  simp only [_get_speed_bonus, SPEED_BONUSES, speedBonusLookup, speedBonusSpec]
  rcases lt_or_le time_ratio (1/4) with h1 | h1
  · rw [if_pos ⟨h, h1⟩, if_pos h1]
  · rw [if_neg (by rintro ⟨-, hb⟩; exact absurd hb (not_lt.mpr h1)), if_neg (not_lt.mpr h1)]
    rcases lt_or_le time_ratio (1/2) with h2 | h2
    · rw [if_pos ⟨h1, h2⟩, if_pos h2]
    · rw [if_neg (by rintro ⟨-, hb⟩; exact absurd hb (not_lt.mpr h2)), if_neg (not_lt.mpr h2)]
      rcases lt_or_le time_ratio (3/4) with h3 | h3
      · rw [if_pos ⟨h2, h3⟩, if_pos h3]
      · rw [if_neg (by rintro ⟨-, hb⟩; exact absurd hb (not_lt.mpr h3)), if_neg (not_lt.mpr h3)]
        rcases lt_or_le time_ratio 1 with h4 | h4
        · rw [if_pos ⟨h3, h4⟩, if_pos h4]
        · rw [if_neg (by rintro ⟨-, hb⟩; exact absurd hb (not_lt.mpr h4)), if_neg (not_lt.mpr h4),
            if_pos h4]

/-- Witness for C7 at the boundary ratio 0.25: the band with lower bound 0.25
applies, giving bonus 30. -/
theorem claim_C7_witness :
    _get_speed_bonus (1/4 : ℚ) = speedBonusSpec (1/4 : ℚ)
    ∧ _get_speed_bonus (1/4 : ℚ) = 30 := by
  refine ⟨claim_C7_speed_bonus_half_open_bands (1/4) (by norm_num), ?_⟩
  norm_num [_get_speed_bonus, SPEED_BONUSES, speedBonusLookup]

/-- C8: `generate_rating_report(1250)` reports category "senior", percentile
50, next-category threshold 1399 and 149 points to the next category; and in
general `_get_next_threshold` returns the max bound of the first category (in
declared order junior, mid, senior, staff) whose max exceeds the rating, and
1600 when no category's max exceeds it. -/
theorem claim_C8_rating_report_and_next_threshold :
    (generate_rating_report 1250).category = "senior"
    ∧ (generate_rating_report 1250).percentile = 50
    ∧ (generate_rating_report 1250).next_category_threshold = 1399
    ∧ (generate_rating_report 1250).points_to_next_category = 149
    ∧ ∀ rating : ℤ, _get_next_threshold rating = nextThresholdSpec rating := by
  refine ⟨by decide, by decide, by decide, by decide, ?_⟩
  intro rating
  simp only [_get_next_threshold, RATING_CATEGORIES, nextThresholdLookup, nextThresholdSpec]

/-- C4 counterexample: at `llm_score = 80`, `time_spent = 3`,
`time_limit = 5` the time ratio is 0.6 — outside the fast band on either
reading of "fast" — yet the code's time multiplier is 1.2, neither the 1.0
the claim's "every other case" demands (fast = ratio ≤ 0.5) nor the 1.5 of
its fast+high rule (fast = ratio ≤ 0.75). -/
theorem claim_C4_counterexample :
    (calculate_rating_with_groq_score 80 3 5 "P2").time_multiplier = 6/5
    ∧ (calculate_rating_with_groq_score 80 3 5 "P2").time_multiplier ≠ 1
    ∧ (calculate_rating_with_groq_score 80 3 5 "P2").time_multiplier ≠ 3/2 := by
  norm_num [calculate_rating_with_groq_score]

/-- C4 amended: with a positive time limit, the time-efficiency multiplier of
`calculate_rating_with_groq_score` is 1.5 for high quality (score ≥ 80) with
ratio ≤ 0.5, 1.2 for high quality with ratio in (0.5, 0.75], 1.2 for medium
quality (50 ≤ score < 80) with ratio ≤ 0.5, 0.8 for medium quality with
ratio > 0.75, and 1.0 in every other case. -/
theorem claim_C4_amended_time_multiplier
    (llm_score time_spent_minutes time_limit_minutes : ℤ) (severity : String)
    (h : 0 < time_limit_minutes) :
    (calculate_rating_with_groq_score llm_score time_spent_minutes
        time_limit_minutes severity).time_multiplier
      = groqTimeMultiplierAmended llm_score
          ((time_spent_minutes : ℚ) / (time_limit_minutes : ℚ)) := by
  simp only [calculate_rating_with_groq_score, groqTimeMultiplierAmended, if_pos h]

/-- Witness for C4's amended claim at score 80, 3 of 5 minutes used. -/
theorem claim_C4_witness :
    (calculate_rating_with_groq_score 80 3 5 "P2").time_multiplier
      = groqTimeMultiplierAmended 80 (((3 : ℤ) : ℚ) / ((5 : ℤ) : ℚ))
    ∧ groqTimeMultiplierAmended 80 (((3 : ℤ) : ℚ) / ((5 : ℤ) : ℚ)) = 6/5 :=
  ⟨claim_C4_amended_time_multiplier 80 3 5 "P2" (by norm_num),
   by norm_num [groqTimeMultiplierAmended]⟩

/-- C10: the `round` step of `_apply_rating_smoothing` is Python's
half-to-even rounding of the program's smoothed change — the binary64 product
of `float(points_change)` and the band's factor: whenever that product is
exactly a half (`m + 1/2`), the result is the even one of `m` and `m + 1`; in
particular with `current_rating ≥ 1400` (factor 0.5, exactly representable),
`total_points = 1` yields 0 and `total_points = 5` yields 2. -/
theorem claim_C10_half_to_even_rounding (points_change current_rating m : ℤ) :
    (mulDouble (roundDouble (points_change : ℚ)) (smoothing_factor current_rating)
        = (m : ℚ) + 1/2 →
      _apply_rating_smoothing points_change current_rating % 2 = 0
      ∧ (_apply_rating_smoothing points_change current_rating = m
         ∨ _apply_rating_smoothing points_change current_rating = m + 1))
    ∧ (1400 ≤ current_rating →
        _apply_rating_smoothing 1 current_rating = 0
        ∧ _apply_rating_smoothing 5 current_rating = 2) := by
  constructor
  · intro h
    unfold _apply_rating_smoothing
    rw [h, pyRound_half_add]
    split_ifs with hm
    · exact ⟨hm, Or.inl rfl⟩
    · exact ⟨by omega, Or.inr rfl⟩
  · intro hr
    have hsf : smoothing_factor current_rating = 1/2 := by
      unfold smoothing_factor
      rw [if_pos (by omega)]
    constructor
    · unfold _apply_rating_smoothing mulDouble
      rw [hsf, roundDouble_intCast_small 1 (by norm_num),
        roundDouble_half_intCast_small 1 (by norm_num)]
      push_cast
      norm_num [pyRound]
    · unfold _apply_rating_smoothing mulDouble
      rw [hsf, roundDouble_intCast_small 5 (by norm_num),
        roundDouble_half_intCast_small 5 (by norm_num)]
      push_cast
      norm_num [pyRound]

/-- Witness for C10 at `current_rating = 1400`, exercising both the exact-half
hypothesis (points 1, smoothed product exactly 0 + 1/2) and the band
hypothesis. -/
theorem claim_C10_witness :
    _apply_rating_smoothing 1 1400 % 2 = 0
    ∧ _apply_rating_smoothing 1 1400 = 0
    ∧ _apply_rating_smoothing 5 1400 = 2 := by
  have h := claim_C10_half_to_even_rounding 1 1400 0
  have hhalf : mulDouble (roundDouble ((1 : ℤ) : ℚ)) (smoothing_factor 1400)
      = ((0 : ℤ) : ℚ) + 1/2 := by
    rw [show smoothing_factor 1400 = 1/2 by norm_num [smoothing_factor],
      roundDouble_intCast_small 1 (by norm_num)]
    unfold mulDouble
    rw [roundDouble_half_intCast_small 1 (by norm_num)]
    push_cast
    norm_num
  exact ⟨(h.1 hhalf).1, (h.2 le_rfl).1, (h.2 le_rfl).2⟩

/-- C3: starting from any rating in [800, 1600], `update_user_rating` returns
a `new_rating` in [800, 1600] for every result list, however large or
negative the summed points: the nonempty path clamps with
`max 800 (min 1600 ·)` and the empty path returns the rating unchanged. -/
theorem claim_C3_new_rating_stays_in_bounds (current_rating : ℤ)
    (incident_results : List IncidentResult)
    (h1 : 800 ≤ current_rating) (h2 : current_rating ≤ 1600) :
    800 ≤ (update_user_rating current_rating incident_results).new_rating
    ∧ (update_user_rating current_rating incident_results).new_rating ≤ 1600 := by
  cases incident_results with
  | nil => simpa [update_user_rating] using ⟨h1, h2⟩
  | cons r rs =>
    simp only [update_user_rating, List.isEmpty_cons, Bool.false_eq_true, if_false]
    exact ⟨le_max_left _ _, max_le (by norm_num) (min_le_left _ _)⟩

/-- Witness for C3 with a huge positive point total. -/
theorem claim_C3_witness :
    800 ≤ (update_user_rating 1000 [⟨some 1000000, none, none⟩]).new_rating
    ∧ (update_user_rating 1000 [⟨some 1000000, none, none⟩]).new_rating ≤ 1600 :=
  claim_C3_new_rating_stays_in_bounds 1000 [⟨some 1000000, none, none⟩]
    (by norm_num) (by norm_num)

/-- C5 counterexample: on the empty result list, the dict returned by
`update_user_rating` carries none of the aggregate keys the claim requires —
no `total_points_earned`, no `success_rate`, no `average_resolution_time`
and no `skill_ratings` (the early return only has `new_rating`,
`rating_change` and `session_performance`). -/
theorem claim_C5_counterexample :
    (update_user_rating 1000 []).success_rate = none
    ∧ (update_user_rating 1000 []).total_points_earned = none
    ∧ (update_user_rating 1000 []).average_resolution_time = none
    ∧ (update_user_rating 1000 []).skill_ratings = none := by
  decide

/-- C5 amended: `update_user_rating` never raises; on the empty list it
returns only the defaults (unchanged rating, zero change, no aggregate keys),
and on every non-empty list — missing keys and all — the returned record
carries `total_points_earned`, `average_resolution_time`, `skill_ratings`
and a `success_rate` lying in [0, 1]. -/
theorem claim_C5_amended_update_output_fields (current_rating : ℤ)
    (incident_results : List IncidentResult) :
    (incident_results = [] → update_user_rating current_rating incident_results =
      { new_rating := current_rating, rating_change := 0, total_points_earned := none,
        success_rate := none, average_resolution_time := none, skill_ratings := none,
        session_total_incidents := 0, session_successful_incidents := 0 })
    ∧ (incident_results ≠ [] →
        (update_user_rating current_rating incident_results).total_points_earned.isSome = true
        ∧ (update_user_rating current_rating incident_results).average_resolution_time.isSome = true
        ∧ (update_user_rating current_rating incident_results).skill_ratings.isSome = true
        ∧ ∃ s : ℚ, (update_user_rating current_rating incident_results).success_rate = some s
            ∧ 0 ≤ s ∧ s ≤ 1) := by
  constructor
  · intro h; subst h; rfl
  · intro h
    cases incident_results with
    | nil => exact absurd rfl h
    | cons r rs =>
      simp only [update_user_rating, List.isEmpty_cons, Bool.false_eq_true, if_false,
        List.length_cons, gt_iff_lt, Nat.succ_pos, if_true, Option.isSome_some]
      refine ⟨trivial, trivial, trivial, _, rfl, ?_, ?_⟩
      · positivity
      · rw [div_le_one (by exact_mod_cast Nat.succ_pos rs.length)]
        exact_mod_cast List.length_filter_le _ _

/-- Witness for C5's amended claim on a one-element list. -/
theorem claim_C5_witness :
    (update_user_rating 1000 [⟨some 5, none, none⟩]).total_points_earned.isSome = true
    ∧ (update_user_rating 1000 [⟨some 5, none, none⟩]).average_resolution_time.isSome = true
    ∧ (update_user_rating 1000 [⟨some 5, none, none⟩]).skill_ratings.isSome = true
    ∧ ∃ s : ℚ, (update_user_rating 1000 [⟨some 5, none, none⟩]).success_rate = some s
        ∧ 0 ≤ s ∧ s ≤ 1 :=
  (claim_C5_amended_update_output_fields 1000 [⟨some 5, none, none⟩]).2
    (List.cons_ne_nil _ _)

/-- C6 counterexample: at `update_user_rating(1300, [{total_points: 45}])`
the program's smoothed change is the binary64 product
45 × double(0.7) = 31.499999999999996 (31.5 − 2⁻⁴⁸, since double(0.7) is
below 7/10), so `rating_change` is 31; the claim's formula
round(45 × f(1300)) = round(45 × 0.7) = round(31.5) is 32 under half-to-even
rounding. -/
theorem claim_C6_counterexample :
    (update_user_rating 1300 [⟨some 45, none, none⟩]).rating_change = 31
    ∧ pyRound ((45 : ℚ) * smoothingFactorSpec 1300) = 32 := by
  constructor
  · have h45 : roundDouble ((45 : ℤ) : ℚ) = ((45 : ℤ) : ℚ) :=
      roundDouble_intCast_small 45 (by norm_num)
    have hsf : smoothing_factor 1300 = double07 := by norm_num [smoothing_factor]
    have hprod : roundDouble (((45 : ℤ) : ℚ) * double07) = 8866461766385663 / 2 ^ 48 := by
      rw [double07]
      push_cast
      rw [roundDouble_formula _ 4 (by norm_num) (by rw [abs_of_pos] <;> norm_num)
        (by rw [abs_of_pos] <;> norm_num)]
      norm_num [pyRound]
    have hA : _apply_rating_smoothing 45 1300 = 31 := by
      unfold _apply_rating_smoothing mulDouble
      rw [hsf, h45, hprod]
      norm_num [pyRound]
    simp [update_user_rating, IncidentResult.points, hA]
  · norm_num [smoothingFactorSpec, pyRound]

/-- C6 amended: whenever `update_user_rating` returns a point total `t`
(every non-empty input), its `rating_change` is Python's `round` of the
binary64 product `float(t) × factor` (factor the double of the band's
literal: 1.0 below 1000, 0.8 on [1000,1200), 0.7 on [1200,1400), 0.5 at
≥ 1400); in the bands whose factor is exactly representable (below 1000 and
at ≥ 1400) and for `|t| ≤ 2^52` this equals `round(t × f(current_rating))`
with the exact `f` of the spec; rating 1500 with one 100-point result gives
change 50 and new rating 1550. -/
theorem claim_C6_amended_smoothed_rating_change (current_rating : ℤ)
    (incident_results : List IncidentResult) (t : ℤ)
    (h : (update_user_rating current_rating incident_results).total_points_earned = some t) :
    (update_user_rating current_rating incident_results).rating_change
      = pyRound (mulDouble (roundDouble (t : ℚ)) (smoothing_factor current_rating))
    ∧ (|t| ≤ 2 ^ 52 → current_rating < 1000 ∨ 1400 ≤ current_rating →
        (update_user_rating current_rating incident_results).rating_change
          = pyRound ((t : ℚ) * smoothingFactorSpec current_rating))
    ∧ (update_user_rating 1500 [⟨some 100, none, none⟩]).rating_change = 50
    ∧ (update_user_rating 1500 [⟨some 100, none, none⟩]).new_rating = 1550 := by
  have hA100 : _apply_rating_smoothing 100 1500 = 50 := by
    unfold _apply_rating_smoothing mulDouble
    rw [show smoothing_factor 1500 = 1/2 by norm_num [smoothing_factor],
      roundDouble_intCast_small 100 (by norm_num),
      roundDouble_half_intCast_small 100 (by norm_num)]
    push_cast
    norm_num [pyRound]
  cases incident_results with
  | nil => simp [update_user_rating] at h
  | cons r rs =>
    have hrc : (update_user_rating current_rating (r :: rs)).rating_change
        = _apply_rating_smoothing t current_rating := by
      simp only [update_user_rating, List.isEmpty_cons, Bool.false_eq_true, if_false,
        Option.some.injEq] at h ⊢
      rw [← h]
    refine ⟨by rw [hrc]; rfl, ?_, ?_, ?_⟩
    · intro hb hband
      rw [hrc]
      rcases hband with hlow | hhigh
      · have hsf : smoothing_factor current_rating = 1 := by
          unfold smoothing_factor
          rw [if_neg (by omega), if_neg (by omega), if_neg (by omega)]
        have hsp : smoothingFactorSpec current_rating = 1 := by
          unfold smoothingFactorSpec
          rw [if_pos (by omega)]
        rcases eq_or_ne t 0 with rfl | ht0
        · unfold _apply_rating_smoothing mulDouble
          rw [hsf, hsp]
          norm_num [roundDouble]
        · have hrd : roundDouble ((t : ℤ) : ℚ) = ((t : ℤ) : ℚ) :=
            roundDouble_intCast_small t hb
          unfold _apply_rating_smoothing mulDouble
          rw [hsf, hsp, hrd, mul_one, hrd]
      · have hsf : smoothing_factor current_rating = 1/2 := by
          unfold smoothing_factor
          rw [if_pos (by omega)]
        have hsp : smoothingFactorSpec current_rating = 1/2 := by
          unfold smoothingFactorSpec
          rw [if_neg (by omega), if_neg (by omega), if_neg (by omega)]
        rcases eq_or_ne t 0 with rfl | ht0
        · unfold _apply_rating_smoothing mulDouble
          rw [hsf, hsp]
          norm_num [roundDouble]
        · have hrd : roundDouble ((t : ℤ) : ℚ) = ((t : ℤ) : ℚ) :=
            roundDouble_intCast_small t hb
          unfold _apply_rating_smoothing mulDouble
          rw [hsf, hsp, hrd, roundDouble_half_intCast_small t hb]
    · simp [update_user_rating, IncidentResult.points, hA100]
    · norm_num [update_user_rating, IncidentResult.points, hA100]

/-- Witness for C6's amended claim at rating 1500 with a single 100-point
result, discharging the point-total, magnitude and band hypotheses there. -/
theorem claim_C6_witness :
    (update_user_rating 1500 [⟨some 100, none, none⟩]).rating_change
      = pyRound (((100 : ℤ) : ℚ) * smoothingFactorSpec 1500)
    ∧ (update_user_rating 1500 [⟨some 100, none, none⟩]).rating_change = 50
    ∧ (update_user_rating 1500 [⟨some 100, none, none⟩]).new_rating = 1550 := by
  have h := claim_C6_amended_smoothed_rating_change 1500 [⟨some 100, none, none⟩] 100 (by decide)
  exact ⟨h.2.1 (by norm_num) (Or.inr (by norm_num)), h.2.2.1, h.2.2.2⟩

/-- C9: every skill rating `_calculate_skill_ratings` produces lies in
[800, 1480]: the success rate is in [0, 1], the base is 800 + rate×600 and
the largest per-skill bonus is rate×80, so the unclamped sub-ratings never
leave the global [800, 1600] band. -/
theorem claim_C9_skill_ratings_bounded (incident_results : List IncidentResult) :
    (800 ≤ (_calculate_skill_ratings incident_results).debugging_skill
      ∧ (_calculate_skill_ratings incident_results).debugging_skill ≤ 1480)
    ∧ (800 ≤ (_calculate_skill_ratings incident_results).system_design
      ∧ (_calculate_skill_ratings incident_results).system_design ≤ 1480)
    ∧ (800 ≤ (_calculate_skill_ratings incident_results).incident_response
      ∧ (_calculate_skill_ratings incident_results).incident_response ≤ 1480)
    ∧ (800 ≤ (_calculate_skill_ratings incident_results).communication
      ∧ (_calculate_skill_ratings incident_results).communication ≤ 1480) := by
  cases incident_results with
  | nil => norm_num [_calculate_skill_ratings]
  | cons r rs =>
    simp only [_calculate_skill_ratings, List.isEmpty_cons, Bool.false_eq_true, if_false,
      List.length_cons, ne_eq, Nat.succ_ne_zero, not_false_iff, if_true]
    generalize hgen : ((List.filter _ (r :: rs)).length : ℚ) / ((rs.length + 1 : ℕ) : ℚ) = s
    have hs0 : 0 ≤ s := by
      rw [← hgen]; positivity
    have hs1 : s ≤ 1 := by
      rw [← hgen, div_le_one (by exact_mod_cast Nat.succ_pos rs.length)]
      exact_mod_cast List.length_filter_le _ _
    refine ⟨⟨?_, ?_⟩, ⟨?_, ?_⟩, ⟨?_, ?_⟩, ⟨?_, ?_⟩⟩ <;>
      first
        | (apply le_pyRound; push_cast; linarith)
        | (apply pyRound_le; push_cast; linarith)

end RatingCalculator

